import Mathlib

/-!
Verification development for the PubMed-Researcher ingestion pipeline
(src/main.py).  The Python script is shallowly embedded below: external
effects (the PubMed fetch, the Gemini engine, the Notion write) become
explicit oracle parameters, and every function of the script that the
properties mention is translated into an executable Lean definition that
mirrors the source line by line.
-/

/-- One fetched paper, as built by `get_papers` (src/main.py lines 88-94):
pmid, stripped title, joined abstract, year string and canonical URL. -/
structure Paper where
  pmid : String
  title : String
  abstract : String
  year : String
  url : String
deriving DecidableEq

/-- The JSON object returned by the analysis engine for one paper.  The
script accesses the five keys dynamically and each one may be missing from
the response, hence `Option` fields: `none` models an absent key. -/
structure Analysis where
  summary : Option String
  methods : Option String
  population : Option String
  effect_sizes : Option String
  hypothesis : Option String
deriving DecidableEq

/-- Outcome of the Gemini call inside `analyze_paper`: the call raises or
returns non-JSON (`err`), returns a JSON object (`obj`), or returns a JSON
array of objects (`arr`), which the script unwraps with `raw[0]`. -/
inductive EngineResp where
  | err : EngineResp
  | obj : Analysis → EngineResp
  | arr : List Analysis → EngineResp
deriving DecidableEq

/-- `analyze_paper` (src/main.py lines 114-147) as a function of the engine
response.  A failed call returns `None`; a list-wrapped response is unwrapped
with `raw[0]` (an empty list makes `raw[0]` raise, which the `except` turns
into `None`); missing keys are only printed, the result is returned as-is. -/
def analyze_paper (resp : EngineResp) : Option Analysis :=
  match resp with
  | .err => none
  | .obj a => some a
  | .arr [] => none
  | .arr (a :: _) => some a

/-- All five required keys present (non-null) in an analysis record. -/
def allFieldsPresent (a : Analysis) : Bool :=
  a.summary.isSome && a.methods.isSome && a.population.isSome &&
    a.effect_sizes.isSome && a.hypothesis.isSome

/-- The JSON object returned by the engine for batch synthesis; the script
reads the two keys with `.get`, so each may be missing. -/
structure SynthRaw where
  contradictions : Option String
  new_hypotheses : Option String
deriving DecidableEq

/-- Outcome of the Gemini call inside `synthesize_batch`, same shape as
`EngineResp`. -/
inductive SynthResp where
  | err : SynthResp
  | obj : SynthRaw → SynthResp
  | arr : List SynthRaw → SynthResp
deriving DecidableEq

/-- The dict returned by `synthesize_batch` for a batch of fewer than two
papers (src/main.py line 155). -/
def singleBatchSentinel : SynthRaw :=
  { contradictions := some "N/A — only one paper in batch.", new_hypotheses := some "" }

/-- The dict returned by `synthesize_batch` when the engine call fails
(src/main.py line 179). -/
def synthErrorSentinel : SynthRaw :=
  { contradictions := some "Synthesis error.", new_hypotheses := some "" }

/-- `synthesize_batch` (src/main.py lines 152-179).  The second component of
the result records whether the engine was called at all: batches of fewer
than two papers return the single-batch sentinel before any call is made. -/
def synthesize_batch (resp : SynthResp) (papers_with_analysis : List (Paper × Analysis)) :
    SynthRaw × Bool :=
  if papers_with_analysis.length < 2 then (singleBatchSentinel, false)
  else
    match resp with
    | .err => (synthErrorSentinel, true)
    | .obj s => (s, true)
    | .arr [] => (synthErrorSentinel, true)
    | .arr (s :: _) => (s, true)

/-- The `rt` helper inside `push_to_notion` (src/main.py lines 224-226):
the rich-text content is the field text cut to its first 2000 characters.
Only the `content` string of the block is modelled. -/
def rt (text : String) : String :=
  String.mk (text.toList.take 2000)

/-- Decides whether `needle` occurs at the head of `hay`, character by
character (the base step of Python's substring operator `in`). -/
def headMatches : List Char → List Char → Bool
  | [], _ => true
  | _ :: _, [] => false
  | a :: as, b :: bs => a == b && headMatches as bs

/-- Decides whether `needle` occurs contiguously anywhere in `hay`:
Python's substring operator `in` on strings. -/
def hasSub (needle : List Char) : List Char → Bool
  | [] => headMatches needle []
  | c :: rest => headMatches needle (c :: rest) || hasSub needle rest

/-- Python `str.lower`, restricted to the per-character lowering that the
script's ASCII sentinels exercise. -/
def lowerChars (s : List Char) : List Char :=
  s.map Char.toLower

/-- The `Status` select value computed in `push_to_notion` (src/main.py
lines 250-256): `"Flagged"` iff the lowercased contradiction note contains
the word `"contradiction"` and the first 10 characters of the paper title
occur in the note, else `"New"`. -/
def statusOf (title note : String) : String :=
  if hasSub ("contradiction".toList) (lowerChars note.toList) &&
      hasSub (title.toList.take 10) note.toList
  then "Flagged" else "New"

/-- The combined hypothesis field built in `push_to_notion` (src/main.py
lines 233-236): join the non-empty parts of the per-paper hypothesis and the
labelled cross-paper hypotheses with a blank line. -/
def full_hypothesis (analysisHyp new_hypotheses : String) : String :=
  String.intercalate "\n\n"
    (([analysisHyp,
       if new_hypotheses == "" then "" else "[Cross-paper] " ++ new_hypotheses]).filter
      (fun s => s != ""))

/-- The property payload of one Notion page, keyed as in src/main.py lines
238-258 (rich-text blocks reduced to their content strings). -/
structure NotionRow where
  name : String
  summary : String
  methods : String
  population : String
  effect_sizes : String
  hypothesis : String
  contradicts : String
  link : String
  query : String
  status : String
deriving DecidableEq

/-- `push_to_notion` (src/main.py lines 216-275).  `writeOk` is the oracle
for the Notion API response (`res.status_code == 200`); the function returns
the built row together with the reported success. -/
def push_to_notion (writeOk : Bool) (paper : Paper) (analysis : Analysis)
    (synthesis : SynthRaw) (query : String) : NotionRow × Bool :=
  let contradiction_note := synthesis.contradictions.getD ""
  let new_hypotheses := synthesis.new_hypotheses.getD ""
  let row : NotionRow :=
    { name := rt paper.title
      summary := rt (analysis.summary.getD "")
      methods := rt (analysis.methods.getD "")
      population := rt (analysis.population.getD "")
      effect_sizes := rt (analysis.effect_sizes.getD "")
      hypothesis := rt (full_hypothesis (analysis.hypothesis.getD "") new_hypotheses)
      contradicts := rt contradiction_note
      link := paper.url
      query := rt query
      status := statusOf paper.title contradiction_note }
  (row, writeOk)

/-- `load_seen` (src/main.py lines 42-46): the set of already-pushed pmids
read from the local `seen_pmids.json` file, empty when the file does not
exist.  `seenFile` is `some ids` when the file exists with contents `ids`.
Python builds a `set`; a list used only through membership models it. -/
def load_seen (seenFile : Option (List String)) : List String :=
  match seenFile with
  | some ids => ids
  | none => []

/-- The per-query dedup filter of `run_scan` (src/main.py line 295):
papers whose pmid is not in the seen set, in fetched order. -/
def newPapersOf (seen : List String) (papers : List Paper) : List Paper :=
  papers.filter (fun p => decide (¬ p.pmid ∈ seen))

/-- The analysis loop of `run_scan` (src/main.py lines 303-309): each new
paper is analysed and kept, paired with its analysis, exactly when
`analyze_paper` did not fail.  `analyzeO` is the per-paper engine oracle. -/
def analyzedOf (analyzeO : Paper → Option Analysis) (seen : List String)
    (papers : List Paper) : List (Paper × Analysis) :=
  (newPapersOf seen papers).filterMap (fun p => (analyzeO p).map (fun a => (p, a)))

/-- One step of the push loop of `run_scan` (src/main.py lines 321-326):
push the entry, and on reported success append the entry to the written log
and add its pmid to the seen set. -/
def pushStep (writeO : Paper → Bool) (st : List String × List Paper)
    (pa : Paper × Analysis) : List String × List Paper :=
  if writeO pa.1 then (pa.1.pmid :: st.1, st.2 ++ [pa.1]) else st

/-- What one query contributes to a run: the seen set after the query's push
loop, the (entry, synthesis) pairs submitted to `push_to_notion`, and the
papers whose write succeeded (exactly the `seen.add` calls, in order). -/
structure QueryOutcome where
  seenAfter : List String
  pushInputs : List ((Paper × Analysis) × SynthRaw)
  written : List Paper
deriving DecidableEq

/-- The body of `run_scan`'s per-query loop (src/main.py lines 290-326):
filter fetched papers against the seen set, analyse the new ones, skip the
query when nothing survives, otherwise synthesise the batch once and push
every analysed entry with that shared synthesis. -/
def processQuery (analyzeO : Paper → Option Analysis) (synthResp : SynthResp)
    (writeO : Paper → Bool) (seen : List String) (papers : List Paper) : QueryOutcome :=
  if newPapersOf seen papers = [] then { seenAfter := seen, pushInputs := [], written := [] }
  else if analyzedOf analyzeO seen papers = [] then
    { seenAfter := seen, pushInputs := [], written := [] }
  else
    { seenAfter := ((analyzedOf analyzeO seen papers).foldl (pushStep writeO) (seen, [])).1
      pushInputs := (analyzedOf analyzeO seen papers).map
        (fun pa => (pa, (synthesize_batch synthResp (analyzedOf analyzeO seen papers)).1))
      written := ((analyzedOf analyzeO seen papers).foldl (pushStep writeO) (seen, [])).2 }

/-- The state threaded through a whole run: the seen set (saved back to the
local file at the end of `run_scan`) and the papers written to Notion. -/
structure RunOutcome where
  seenFinal : List String
  written : List Paper
deriving DecidableEq

/-- One query iteration of `run_scan`, accumulating the run state. -/
def runStep (analyzeO : String → Paper → Option Analysis) (synthO : String → SynthResp)
    (writeO : String → Paper → Bool) (fetchO : String → List Paper)
    (st : RunOutcome) (q : String) : RunOutcome :=
  { seenFinal := (processQuery (analyzeO q) (synthO q) (writeO q) st.seenFinal (fetchO q)).seenAfter
    written := st.written ++ (processQuery (analyzeO q) (synthO q) (writeO q) st.seenFinal (fetchO q)).written }

/-- `run_scan` (src/main.py lines 280-329): seed the seen set from the local
file via `load_seen`, then process each configured query in order.  The
oracles are indexed by the query so distinct external calls may behave
differently. -/
def run_scan (analyzeO : String → Paper → Option Analysis) (synthO : String → SynthResp)
    (writeO : String → Paper → Bool) (fetchO : String → List Paper)
    (seenFile : Option (List String)) (queries : List String) : RunOutcome :=
  queries.foldl (runStep analyzeO synthO writeO fetchO)
    { seenFinal := load_seen seenFile, written := [] }

/-- The per-article data that `get_papers` extracts from the fetched XML
before assembling a `Paper`: the pmid, the text of `ArticleTitle` (absent or
empty text both fall back), the non-empty `AbstractText` sections, and the
text of the first `PubDate/Year` element when one exists. -/
structure RawArticle where
  pmid : String
  titleText : Option String
  abstractParts : List String
  yearText : Option String
deriving DecidableEq

/-- The `Paper` built by `get_papers` for one article (src/main.py lines
81-94): `(root.find(...) or Element).text or "No Title"` falls back on a
missing or empty title, the abstract sections are joined with spaces, and
the year is the `PubDate/Year` text or the literal `"?"` when absent. -/
def paperOfRaw (raw : RawArticle) : Paper :=
  { pmid := raw.pmid
    title := (if raw.titleText.getD "" = "" then "No Title" else raw.titleText.getD "").trim
    abstract := (String.intercalate " " raw.abstractParts).trim
    year := match raw.yearText with
      | some t => t
      | none => "?"
    url := "https://pubmed.ncbi.nlm.nih.gov/" ++ raw.pmid ++ "/" }

/-- Modelled from the spec: the spec's Dedup Tracker `load(store)` paginates
the Knowledge Store's full record listing and collects every stored item's
identity; `pages` are the store's listing pages.  No such code exists in the
script — this definition follows the spec's words, for comparison with the
script's `load_seen`. -/
def dedupLoadFromStore (pages : List (List String)) : List String :=
  pages.flatten

/-- Modelled from the spec: the claimed `published_at` defaulting policy —
the given year's text when the source supplies a year, the current
processing year when it omits the year entirely.  The script has no such
defaulting; this definition follows the spec's words, for comparison with
the year field `paperOfRaw` actually produces. -/
def published_at_spec (currentYear : Nat) (yearText : Option String) : String :=
  match yearText with
  | some y => y
  | none => toString currentYear

/-! Helper facts and claim theorems. -/

/-- C1 counterexample: an engine response missing the `summary` key is
returned by `analyze_paper` exactly as it came in, with the key still
absent — no sentinel is filled in, refuting the claimed default-filling. -/
def missingKeysAnalysis : Analysis :=
  ⟨none, some "m", some "p", some "e", some "h"⟩

/-- C1: the claim is false — `analyze_paper` hands back the extraction
result with the missing `summary` key still absent, so the produced item
does not have all five keys present. -/
theorem analyze_paper_missing_key_counterexample :
    analyze_paper (EngineResp.obj missingKeysAnalysis) = some missingKeysAnalysis ∧
      allFieldsPresent missingKeysAnalysis = false :=
  ⟨rfl, rfl⟩

/-- C1 (amended): `analyze_paper` returns the engine's result unchanged
(unwrapping a single-element array), leaving missing keys absent; an empty
string is substituted for a missing key only when the Sync Writer reads the
field, as the row built by `push_to_notion` shows for `summary`. -/
theorem analyze_paper_passthrough (a : Analysis) (ok : Bool) (p : Paper)
    (s : SynthRaw) (q : String) :
    analyze_paper (EngineResp.obj a) = some a ∧
      analyze_paper (EngineResp.arr [a]) = some a ∧
      (push_to_notion ok p a s q).1.summary = rt (a.summary.getD "") :=
  ⟨rfl, rfl, rfl⟩

/-- C2: the claim is false — the run's dedup seed is the local
`seen_pmids.json` contents, not a rebuild from the Knowledge Store: with the
local file holding `"p1"` and the store listing empty, `load_seen` still
yields a non-empty dedup set, and a run seeds its seen set with exactly the
file's contents while consulting no store at all. -/
theorem dedup_seed_ignores_store_counterexample :
    load_seen (some ["p1"]) ≠ dedupLoadFromStore [] ∧
      (run_scan (fun _ _ => none) (fun _ => SynthResp.err) (fun _ _ => false)
          (fun _ => []) (some ["p1"]) ["q"]).seenFinal = ["p1"] := by
  constructor
  · decide
  · rfl

/-- C5: a batch of fewer than two analysed papers makes `synthesize_batch`
return the single-batch sentinel dict without calling the engine (the
returned flag records that no engine call was made). -/
theorem synthesize_batch_small_sentinel (resp : SynthResp)
    (batch : List (Paper × Analysis)) (h : batch.length < 2) :
    synthesize_batch resp batch = (singleBatchSentinel, false) := by
  unfold synthesize_batch
  rw [if_pos h]

/-- A concrete paper used by several witnesses. -/
def samplePaper : Paper := ⟨"11", "T1", "A1", "2024", "u1"⟩

/-- A concrete full analysis used by several witnesses. -/
def sampleAnalysis : Analysis := ⟨some "s", some "m", some "p", some "e", some "h"⟩

/-- C5 witness: a one-paper batch, with the engine oracle ready to answer,
still yields the sentinel and no engine call. -/
theorem synthesize_batch_small_sentinel_witness :
    synthesize_batch (SynthResp.obj ⟨some "c", some "n"⟩)
        [(samplePaper, sampleAnalysis)] = (singleBatchSentinel, false) :=
  synthesize_batch_small_sentinel _ _ (by decide)

/-- C8: every rich-text content string submitted by `push_to_notion` is cut
to at most 2000 characters, and a 5000-character field is cut to exactly
2000 characters. -/
theorem rt_truncates_to_2000 (s : String) :
    (rt s).toList.length ≤ 2000 ∧
      (s.toList.length = 5000 → (rt s).toList.length = 2000) := by
  constructor
  · show (s.toList.take 2000).length ≤ 2000
    simp [List.length_take]
  · intro h
    show (s.toList.take 2000).length = 2000
    rw [List.length_take, h]
    decide

/-- A concrete 5000-character field. -/
def fiveThousandChars : String := String.mk (List.replicate 5000 'a')

/-- C8 witness: the 5000-character field really has 5000 characters and is
truncated to exactly 2000. -/
theorem rt_truncates_to_2000_witness :
    fiveThousandChars.toList.length = 5000 ∧
      (rt fiveThousandChars).toList.length = 2000 := by
  have h5 : fiveThousandChars.toList.length = 5000 := by
    show (List.replicate 5000 'a').length = 5000
    exact List.length_replicate 5000 'a'
  exact ⟨h5, (rt_truncates_to_2000 fiveThousandChars).2 h5⟩

/-- A fetched article whose XML carries no `PubDate/Year` element. -/
def rawNoYear : RawArticle := ⟨"123", some "T", ["A"], none⟩

/-- C9: the claim is false — when the source omits the year, the paper's
year field is the literal `"?"`, not the current processing year (shown
against the spec's own defaulting policy at processing year 2026); no
calendar date with a month or day is constructed anywhere. -/
theorem year_default_counterexample :
    (paperOfRaw rawNoYear).year = "?" ∧
      (paperOfRaw rawNoYear).year ≠ published_at_spec 2026 rawNoYear.yearText := by
  constructor
  · rfl
  · decide

/-- C9 (amended): `get_papers` records only a year string — the text of the
`PubDate/Year` element when present and the literal `"?"` when absent; no
month/day default and no current-year default exist. -/
theorem year_field_is_element_text_or_question (raw : RawArticle) :
    (paperOfRaw raw).year = raw.yearText.getD "?" := by
  obtain ⟨pm, t, ab, y⟩ := raw
  cases y <;> rfl

/-- C10: when the local seen file does not exist `load_seen` returns the
empty set, so the dedup filter of the first run keeps every fetched paper. -/
theorem load_seen_missing_file_empty :
    load_seen none = [] ∧
      ∀ papers : List Paper, newPapersOf (load_seen none) papers = papers := by
  refine ⟨rfl, ?_⟩
  intro papers
  unfold newPapersOf load_seen
  apply List.filter_eq_self.mpr
  intro a _
  rfl

/-- A needle matches at the head of a list exactly when the list extends it. -/
theorem headMatches_iff (n : List Char) :
    ∀ h : List Char, headMatches n h = true ↔ ∃ r, h = n ++ r := by
  induction n with
  | nil => intro h; simp [headMatches]
  | cons a as ih =>
    intro h
    cases h with
    | nil => simp [headMatches]
    | cons b bs =>
      simp only [headMatches, Bool.and_eq_true, beq_iff_eq, ih bs, List.cons_append]
      constructor
      · rintro ⟨rfl, r, rfl⟩
        exact ⟨r, rfl⟩
      · rintro ⟨r, hr⟩
        obtain ⟨rfl, rfl⟩ := List.cons.inj hr
        exact ⟨rfl, r, rfl⟩

/-- `hasSub` decides contiguous containment: it is true exactly when the
haystack splits around the needle. -/
theorem hasSub_iff (n : List Char) :
    ∀ h : List Char, hasSub n h = true ↔ ∃ l r, h = l ++ (n ++ r) := by
  intro h
  induction h with
  | nil =>
    simp only [hasSub, headMatches_iff]
    constructor
    · rintro ⟨r, hr⟩
      exact ⟨[], r, hr⟩
    · rintro ⟨l, r, hlr⟩
      cases l with
      | nil => exact ⟨r, hlr⟩
      | cons x xs => simp at hlr
  | cons c rest ih =>
    simp only [hasSub, Bool.or_eq_true, headMatches_iff, ih]
    constructor
    · rintro (⟨r, hr⟩ | ⟨l, r, hr⟩)
      · exact ⟨[], r, hr⟩
      · exact ⟨c :: l, r, by rw [List.cons_append, hr]⟩
    · rintro ⟨l, r, hr⟩
      cases l with
      | nil => exact Or.inl ⟨r, hr⟩
      | cons d l2 =>
        rw [List.cons_append] at hr
        obtain ⟨rfl, h2⟩ := List.cons.inj hr
        exact Or.inr ⟨l2, r, h2⟩

/-- The write path marks a row `"Flagged"` exactly when the lowercased note
contains the word `"contradiction"` and the note contains the first ten
characters of the title. -/
theorem statusOf_flagged_iff (title note : String) :
    statusOf title note = "Flagged" ↔
      (∃ l r, lowerChars note.toList = l ++ ("contradiction".toList ++ r)) ∧
      (∃ l r, note.toList = l ++ (title.toList.take 10 ++ r)) := by
  unfold statusOf
  split
  next hcond =>
    rw [Bool.and_eq_true] at hcond
    exact iff_of_true rfl
      ⟨(hasSub_iff _ _).mp hcond.1, (hasSub_iff _ _).mp hcond.2⟩
  next hcond =>
    refine iff_of_false (by decide) ?_
    intro h
    exact hcond (by
      rw [Bool.and_eq_true]
      exact ⟨(hasSub_iff _ _).mpr h.1, (hasSub_iff _ _).mpr h.2⟩)

/-- A paper whose title begins with the ten characters `"No direct "`. -/
def c7paper : Paper := ⟨"9", "No direct effects of exercise", "", "2024", "u"⟩

/-- A synthesis whose contradiction note is exactly the engine's
no-contradictions sentinel. -/
def noContraNote : SynthRaw := ⟨some "No direct contradictions detected.", some ""⟩

/-- C7: the claim is false — with the contradiction note equal to the
no-contradictions sentinel, the row for a paper titled
`"No direct effects of exercise"` is still marked `"Flagged"`, because the
sentinel itself contains the word `"contradiction"` and happens to contain
the first ten characters of that title. -/
theorem flagged_true_on_sentinel_counterexample :
    noContraNote.contradictions = some "No direct contradictions detected." ∧
      (push_to_notion true c7paper sampleAnalysis noContraNote "q").1.status = "Flagged" :=
  ⟨rfl, rfl⟩

/-- C7 (amended): the row built by `push_to_notion` has status `"Flagged"`
exactly when the lowercased contradiction note contains the substring
`"contradiction"` and the note contains the first ten characters of the
paper's title; the sentinel strings receive no special treatment, so a
sentinel note can still flag a row and a substantive note that avoids the
word `"contradiction"` never does. -/
theorem flagged_iff_substring_conditions (ok : Bool) (p : Paper) (a : Analysis)
    (s : SynthRaw) (q : String) :
    ((push_to_notion ok p a s q).1.status = "Flagged" ↔
      (∃ l r, lowerChars ((s.contradictions.getD "").toList) =
          l ++ ("contradiction".toList ++ r)) ∧
      (∃ l r, (s.contradictions.getD "").toList =
          l ++ (p.title.toList.take 10 ++ r))) := by
  have hrow : (push_to_notion ok p a s q).1.status =
      statusOf p.title (s.contradictions.getD "") := rfl
  rw [hrow]
  exact statusOf_flagged_iff _ _

/-- The push loop's written log: the initial log followed by exactly the
entries whose write succeeded, in processing order. -/
theorem pushLoop_written (writeO : Paper → Bool) :
    ∀ (l : List (Paper × Analysis)) (s : List String) (w : List Paper),
      (l.foldl (pushStep writeO) (s, w)).2 =
        w ++ (l.filter (fun pa => writeO pa.1)).map (fun pa => pa.1) := by
  intro l
  induction l with
  | nil => intro s w; simp
  | cons pa l ih =>
    intro s w
    rw [List.foldl_cons]
    cases hw : writeO pa.1 with
    | true =>
      simp only [pushStep, hw, if_true]
      rw [ih]
      simp [List.filter_cons, hw]
    | false =>
      simp only [pushStep, hw]
      rw [ih]
      simp [List.filter_cons, hw]

/-- The push loop's seen set holds an identity exactly when it was already
seen or one of the successfully written entries carries it. -/
theorem pushLoop_seen_mem (writeO : Paper → Bool) :
    ∀ (l : List (Paper × Analysis)) (s : List String) (w : List Paper) (x : String),
      (x ∈ (l.foldl (pushStep writeO) (s, w)).1 ↔
        x ∈ s ∨ x ∈ (l.filter (fun pa => writeO pa.1)).map (fun pa => pa.1.pmid)) := by
  intro l
  induction l with
  | nil => intro s w x; simp
  | cons pa l ih =>
    intro s w x
    rw [List.foldl_cons]
    cases hw : writeO pa.1 with
    | true =>
      simp only [pushStep, hw, if_true]
      rw [ih]
      simp only [List.filter_cons, hw, if_true, List.map_cons, List.mem_cons]
      tauto
    | false =>
      simp only [pushStep, hw]
      rw [ih]
      simp [List.filter_cons, hw]

/-- Projecting the analysed pairs onto their papers yields the new papers
whose analysis succeeded, in order. -/
theorem analyzedOf_fst (analyzeO : Paper → Option Analysis) :
    ∀ l : List Paper,
      (l.filterMap (fun p => (analyzeO p).map (fun a => (p, a)))).map (fun pa => pa.1) =
        l.filter (fun p => (analyzeO p).isSome) := by
  intro l
  induction l with
  | nil => rfl
  | cons p l ih =>
    cases h : analyzeO p with
    | none => simp [List.filterMap_cons, h, ih, List.filter_cons]
    | some a => simp [List.filterMap_cons, h, ih, List.filter_cons]

/-- A pair survives the analysis loop exactly when its paper passed the
dedup filter and the engine returned that analysis for it. -/
theorem mem_analyzedOf (analyzeO : Paper → Option Analysis) (seen : List String)
    (papers : List Paper) (p : Paper) (a : Analysis) :
    (p, a) ∈ analyzedOf analyzeO seen papers ↔
      p ∈ newPapersOf seen papers ∧ analyzeO p = some a := by
  unfold analyzedOf
  rw [List.mem_filterMap]
  constructor
  · rintro ⟨q, hq, hmap⟩
    rw [Option.map_eq_some'] at hmap
    obtain ⟨b, hb, heq⟩ := hmap
    injection heq with h1 h2
    subst h1; subst h2
    exact ⟨hq, hb⟩
  · rintro ⟨hp, ha⟩
    exact ⟨p, hp, by rw [ha]; rfl⟩

/-- A paper passes the dedup filter exactly when it was fetched and its pmid
is not in the seen set. -/
theorem mem_newPapersOf (seen : List String) (papers : List Paper) (p : Paper) :
    p ∈ newPapersOf seen papers ↔ p ∈ papers ∧ ¬ p.pmid ∈ seen := by
  unfold newPapersOf
  simp [List.mem_filter]

/-- The query's written log equals the analysed entries whose write
succeeded, projected to their papers. -/
theorem processQuery_written (analyzeO : Paper → Option Analysis) (synthResp : SynthResp)
    (writeO : Paper → Bool) (seen : List String) (papers : List Paper) :
    (processQuery analyzeO synthResp writeO seen papers).written =
      ((analyzedOf analyzeO seen papers).filter (fun pa => writeO pa.1)).map
        (fun pa => pa.1) := by
  unfold processQuery
  split
  next hnew =>
    have hana : analyzedOf analyzeO seen papers = [] := by
      unfold analyzedOf
      rw [hnew]
      rfl
    simp [hana]
  next hnew =>
    split
    next hana => simp [hana]
    next hana =>
      dsimp only
      rw [pushLoop_written]
      rfl

/-- The query's seen set after the push loop holds an identity exactly when
it was already seen or some written paper carries it. -/
theorem processQuery_seen_mem (analyzeO : Paper → Option Analysis) (synthResp : SynthResp)
    (writeO : Paper → Bool) (seen : List String) (papers : List Paper) (x : String) :
    x ∈ (processQuery analyzeO synthResp writeO seen papers).seenAfter ↔
      x ∈ seen ∨
        x ∈ (processQuery analyzeO synthResp writeO seen papers).written.map Paper.pmid := by
  rw [processQuery_written]
  unfold processQuery
  split
  next hnew =>
    have hana : analyzedOf analyzeO seen papers = [] := by
      unfold analyzedOf
      rw [hnew]
      rfl
    simp [hana]
  next hnew =>
    split
    next hana => simp [hana]
    next hana =>
      dsimp only
      rw [pushLoop_seen_mem]
      rw [List.map_map]
      rfl

/-- Every paper in a query's written log had passed the dedup filter, so its
pmid was not in the seen set when the query started. -/
theorem mem_written_not_seen (analyzeO : Paper → Option Analysis) (synthResp : SynthResp)
    (writeO : Paper → Bool) (seen : List String) (papers : List Paper) (p : Paper) :
    p ∈ (processQuery analyzeO synthResp writeO seen papers).written →
      ¬ p.pmid ∈ seen := by
  rw [processQuery_written]
  intro hmem
  obtain ⟨⟨q, b⟩, hqb, hfq⟩ := List.mem_map.mp hmem
  obtain ⟨hmem2, hw⟩ := List.mem_filter.mp hqb
  rw [mem_analyzedOf] at hmem2
  have hnew := (mem_newPapersOf _ _ _).mp hmem2.1
  dsimp only at hfq
  subst hfq
  exact hnew.2

/-- The seen set only grows across a query. -/
theorem processQuery_seen_superset (analyzeO : Paper → Option Analysis)
    (synthResp : SynthResp) (writeO : Paper → Bool) (seen : List String)
    (papers : List Paper) (x : String) (hx : x ∈ seen) :
    x ∈ (processQuery analyzeO synthResp writeO seen papers).seenAfter :=
  (processQuery_seen_mem analyzeO synthResp writeO seen papers x).mpr (Or.inl hx)

/-- C3: for a paper that passed the dedup filter of a query, `seen.add` is
reached for it exactly when its analysis succeeded and its store write
reported success (a failed extraction never reaches the push loop, and a
failed write skips the add); moreover the seen set after the query is the
incoming seen set plus precisely the successfully written papers' pmids. -/
theorem seen_recorded_iff_write_success (analyzeO : Paper → Option Analysis)
    (synthResp : SynthResp) (writeO : Paper → Bool) (seen : List String)
    (papers : List Paper) (p : Paper) (hp : p ∈ newPapersOf seen papers) :
    (p ∈ (processQuery analyzeO synthResp writeO seen papers).written ↔
      (∃ a, analyzeO p = some a) ∧ writeO p = true) ∧
    ∀ x, x ∈ (processQuery analyzeO synthResp writeO seen papers).seenAfter ↔
      x ∈ seen ∨
        x ∈ (processQuery analyzeO synthResp writeO seen papers).written.map Paper.pmid := by
  constructor
  · rw [processQuery_written]
    constructor
    · intro hmem
      obtain ⟨⟨q, b⟩, hqb, hfq⟩ := List.mem_map.mp hmem
      obtain ⟨hmem2, hw⟩ := List.mem_filter.mp hqb
      rw [mem_analyzedOf] at hmem2
      dsimp only at hfq
      subst hfq
      exact ⟨⟨b, hmem2.2⟩, hw⟩
    · rintro ⟨⟨a, ha⟩, hw⟩
      exact List.mem_map.mpr
        ⟨(p, a), List.mem_filter.mpr ⟨(mem_analyzedOf _ _ _ _ _).mpr ⟨hp, ha⟩, hw⟩, rfl⟩
  · intro x
    exact processQuery_seen_mem analyzeO synthResp writeO seen papers x

/-- C3 witness: one fresh paper, successful analysis and successful write —
the paper is recorded in the query's written log. -/
theorem seen_recorded_iff_write_success_witness :
    samplePaper ∈ (processQuery (fun _ => some sampleAnalysis) SynthResp.err
      (fun _ => true) [] [samplePaper]).written :=
  ((seen_recorded_iff_write_success (fun _ => some sampleAnalysis) SynthResp.err
    (fun _ => true) [] [samplePaper] samplePaper (by decide)).1).mpr
    ⟨⟨sampleAnalysis, rfl⟩, rfl⟩

/-- C6: when the synthesis engine call fails on a batch of at least two
analysed papers, `synthesize_batch` returns the degraded sentinel instead of
propagating the error, and every analysed entry of the batch is still
submitted to the Sync Writer paired with that degraded synthesis. -/
theorem synthesis_error_degrades_and_items_pushed (analyzeO : Paper → Option Analysis)
    (writeO : Paper → Bool) (seen : List String) (papers : List Paper)
    (h2 : 2 ≤ (analyzedOf analyzeO seen papers).length) :
    synthesize_batch SynthResp.err (analyzedOf analyzeO seen papers) =
      (synthErrorSentinel, true) ∧
    ∀ pa ∈ analyzedOf analyzeO seen papers,
      (pa, synthErrorSentinel) ∈
        (processQuery analyzeO SynthResp.err writeO seen papers).pushInputs := by
  have hsynth : synthesize_batch SynthResp.err (analyzedOf analyzeO seen papers) =
      (synthErrorSentinel, true) := by
    unfold synthesize_batch
    rw [if_neg (by omega)]
  refine ⟨hsynth, ?_⟩
  intro pa hpa
  have hana : ¬ analyzedOf analyzeO seen papers = [] := by
    intro h
    rw [h] at h2
    simp at h2
  have hnew : ¬ newPapersOf seen papers = [] := by
    intro h
    apply hana
    unfold analyzedOf
    rw [h]
    rfl
  unfold processQuery
  rw [if_neg hnew, if_neg hana]
  dsimp only
  simp only [hsynth]
  exact List.mem_map.mpr ⟨pa, hpa, rfl⟩

/-- A second concrete paper, with a pmid distinct from `samplePaper`. -/
def paperB : Paper := ⟨"22", "T2", "A2", "2024", "u2"⟩

/-- C6 witness: a two-paper batch whose synthesis call fails — the first
entry is still submitted with the degraded sentinel attached. -/
theorem synthesis_error_degrades_and_items_pushed_witness :
    ((samplePaper, sampleAnalysis), synthErrorSentinel) ∈
      (processQuery (fun _ => some sampleAnalysis) SynthResp.err (fun _ => true) []
        [samplePaper, paperB]).pushInputs :=
  (synthesis_error_degrades_and_items_pushed (fun _ => some sampleAnalysis)
    (fun _ => true) [] [samplePaper, paperB] (by decide)).2
    (samplePaper, sampleAnalysis) (by decide)

/-- An identity already seen when a run state is reached, and absent from
its written log, stays seen and is never written by the remaining queries. -/
theorem run_preserves_seen_excludes (analyzeO : String → Paper → Option Analysis)
    (synthO : String → SynthResp) (writeO : String → Paper → Bool)
    (fetchO : String → List Paper) :
    ∀ (queries : List String) (st : RunOutcome) (pid : String),
      pid ∈ st.seenFinal → ¬ pid ∈ st.written.map Paper.pmid →
      pid ∈ (queries.foldl (runStep analyzeO synthO writeO fetchO) st).seenFinal ∧
        ¬ pid ∈
          (queries.foldl (runStep analyzeO synthO writeO fetchO) st).written.map
            Paper.pmid := by
  intro queries
  induction queries with
  | nil =>
    intro st pid h1 h2
    exact ⟨h1, h2⟩
  | cons q qs ih =>
    intro st pid h1 h2
    rw [List.foldl_cons]
    apply ih
    · exact processQuery_seen_superset _ _ _ _ _ pid h1
    · show ¬ pid ∈ (st.written ++ _).map Paper.pmid
      rw [List.map_append]
      intro hmem
      rcases List.mem_append.mp hmem with hold | hnewmem
      · exact h2 hold
      · obtain ⟨p, hp, hpid⟩ := List.mem_map.mp hnewmem
        subst hpid
        exact mem_written_not_seen _ _ _ _ _ _ hp h1

/-- C2 (amended): every run seeds its dedup set from the local
`seen_pmids.json` file via `load_seen`, and an identity recorded in that
local file is never written to the Knowledge Store during the run —
irrespective of the store's actual contents, which are never consulted. -/
theorem local_cache_governs_dedup (analyzeO : String → Paper → Option Analysis)
    (synthO : String → SynthResp) (writeO : String → Paper → Bool)
    (fetchO : String → List Paper) (seenFile : Option (List String))
    (queries : List String) (pid : String) (h : pid ∈ load_seen seenFile) :
    ¬ pid ∈ (run_scan analyzeO synthO writeO fetchO seenFile queries).written.map
      Paper.pmid := by
  unfold run_scan
  exact (run_preserves_seen_excludes analyzeO synthO writeO fetchO queries
    { seenFinal := load_seen seenFile, written := [] } pid h (by simp)).2

/-- C2 witness: the pmid `"11"` sits in the local seen file, the fetch
returns the very paper with that pmid, and the run still writes nothing for
it. -/
theorem local_cache_governs_dedup_witness :
    ¬ "11" ∈ (run_scan (fun _ _ => some sampleAnalysis) (fun _ => SynthResp.err)
      (fun _ _ => true) (fun _ => [samplePaper]) (some ["11"]) ["q"]).written.map
        Paper.pmid :=
  local_cache_governs_dedup (fun _ _ => some sampleAnalysis) (fun _ => SynthResp.err)
    (fun _ _ => true) (fun _ => [samplePaper]) (some ["11"]) ["q"] "11" (by decide)

/-- A query's written log is a sublist of the fetched papers. -/
theorem processQuery_written_sublist (analyzeO : Paper → Option Analysis)
    (synthResp : SynthResp) (writeO : Paper → Bool) (seen : List String)
    (papers : List Paper) :
    List.Sublist (processQuery analyzeO synthResp writeO seen papers).written papers := by
  rw [processQuery_written]
  have h1 : List.Sublist
      (((analyzedOf analyzeO seen papers).filter (fun pa => writeO pa.1)).map
        (fun pa => pa.1))
      ((analyzedOf analyzeO seen papers).map (fun pa => pa.1)) :=
    (List.filter_sublist _).map _
  have h2 : (analyzedOf analyzeO seen papers).map (fun pa => pa.1) =
      (newPapersOf seen papers).filter (fun p => (analyzeO p).isSome) :=
    analyzedOf_fst analyzeO (newPapersOf seen papers)
  rw [h2] at h1
  exact h1.trans ((List.filter_sublist _).trans (List.filter_sublist _))

/-- When the fetched pmids of a query are distinct, so are the pmids of its
written log. -/
theorem processQuery_written_pmid_nodup (analyzeO : Paper → Option Analysis)
    (synthResp : SynthResp) (writeO : Paper → Bool) (seen : List String)
    (papers : List Paper) (h : (papers.map Paper.pmid).Nodup) :
    ((processQuery analyzeO synthResp writeO seen papers).written.map Paper.pmid).Nodup :=
  h.sublist ((processQuery_written_sublist analyzeO synthResp writeO seen papers).map
    Paper.pmid)

/-- Folding the remaining queries preserves distinctness of the written
identities, provided every written identity so far is in the seen set and
every query's fetched pmid list is duplicate-free. -/
theorem run_written_nodup (analyzeO : String → Paper → Option Analysis)
    (synthO : String → SynthResp) (writeO : String → Paper → Bool)
    (fetchO : String → List Paper) :
    ∀ (queries : List String) (st : RunOutcome),
      (∀ q ∈ queries, ((fetchO q).map Paper.pmid).Nodup) →
      (st.written.map Paper.pmid).Nodup →
      (∀ x ∈ st.written.map Paper.pmid, x ∈ st.seenFinal) →
      ((queries.foldl (runStep analyzeO synthO writeO fetchO) st).written.map
        Paper.pmid).Nodup := by
  intro queries
  induction queries with
  | nil =>
    intro st _ h2 _
    exact h2
  | cons q qs ih =>
    intro st hq h2 h3
    rw [List.foldl_cons]
    apply ih
    · intro q' hq'
      exact hq q' (List.mem_cons_of_mem _ hq')
    · show ((st.written ++ _).map Paper.pmid).Nodup
      rw [List.map_append, List.nodup_append]
      refine ⟨h2, processQuery_written_pmid_nodup _ _ _ _ _
        (hq q (List.mem_cons_self q qs)), ?_⟩
      intro x hx hx'
      have hseen := h3 x hx
      obtain ⟨p, hp, hpid⟩ := List.mem_map.mp hx'
      subst hpid
      exact mem_written_not_seen _ _ _ _ _ _ hp hseen
    · show ∀ x ∈ (st.written ++ _).map Paper.pmid, _
      intro x hx
      rw [List.map_append] at hx
      rcases List.mem_append.mp hx with hold | hnewmem
      · exact processQuery_seen_superset _ _ _ _ _ x (h3 x hold)
      · exact (processQuery_seen_mem _ _ _ _ _ x).mpr (Or.inr hnewmem)

/-- C4: the claim is false — when one query's fetched list carries the same
pmid twice, both copies pass the dedup filter (it is evaluated once, before
the push loop) and both are written: the run produces two Sync Records for
identity `"11"`. -/
theorem intra_query_duplicate_written_twice :
    (run_scan (fun _ _ => some sampleAnalysis) (fun _ => SynthResp.err) (fun _ _ => true)
        (fun _ => [samplePaper, samplePaper]) none ["q"]).written.map Paper.pmid =
      ["11", "11"] ∧
    ¬ ((run_scan (fun _ _ => some sampleAnalysis) (fun _ => SynthResp.err)
        (fun _ _ => true) (fun _ => [samplePaper, samplePaper]) none
        ["q"]).written.map Paper.pmid).Nodup := by
  constructor
  · rfl
  · decide

/-- C4 (amended): provided each single query's fetched pmids are distinct,
at most one Sync Record is written per identity in a whole run — the seen
set is extended after each successful write and consulted at every later
query's filter, so no identity is written under two different queries. -/
theorem written_identities_nodup_of_batch_nodup (analyzeO : String → Paper → Option Analysis)
    (synthO : String → SynthResp) (writeO : String → Paper → Bool)
    (fetchO : String → List Paper) (seenFile : Option (List String))
    (queries : List String)
    (h : ∀ q ∈ queries, ((fetchO q).map Paper.pmid).Nodup) :
    ((run_scan analyzeO synthO writeO fetchO seenFile queries).written.map
      Paper.pmid).Nodup := by
  unfold run_scan
  exact run_written_nodup analyzeO synthO writeO fetchO queries
    { seenFinal := load_seen seenFile, written := [] } h (by simp) (by simp)

/-- C4 witness: two queries fetching the same two distinct papers — the
first query writes both, the second is fully filtered, and the run's written
identities are duplicate-free. -/
theorem written_identities_nodup_of_batch_nodup_witness :
    ((run_scan (fun _ _ => some sampleAnalysis) (fun _ => SynthResp.err)
      (fun _ _ => true) (fun _ => [samplePaper, paperB]) none
      ["q1", "q2"]).written.map Paper.pmid).Nodup :=
  written_identities_nodup_of_batch_nodup (fun _ _ => some sampleAnalysis)
    (fun _ => SynthResp.err) (fun _ _ => true) (fun _ => [samplePaper, paperB]) none
    ["q1", "q2"] (by decide)
